import Mathlib

/-!
Verification of the dispatch-and-registry subsystem of the mcp-gateway
repository (TypeScript), as a shallow embedding in Lean 4.

The embedding follows:
  * `src/src/modules/gateway/server-registry.service.ts`
      (`ServerRegistryService`: register / unregister / getServer /
       getServerStatus / executeTool / performHealthCheck)
  * `src/src/gateway/LoadBalancer.ts` and
    `src/src/modules/gateway/load-balancer.service.ts`
      (`LoadBalancer` / `LoadBalancerService`: selectServer,
       selectRoundRobin, selectRandom, selectLeastConnections, setStrategy)
  * the `BaziServer` implementation of `IMCPServer`
      (counter discipline around `executeTool`: increment `activeRequests`
       and `totalRequests` on entry, decrement `activeRequests` and refresh
       `status` in a `finally` block on every exit path)

Conventions of the embedding:
  * JavaScript `Map<string, V>` is an association list `List (String × V)`;
    `set` removes any previous binding of the key and appends the new one,
    `delete` filters the key out, `get` is `mapGet`.
  * `Date` values are abstract `Nat` timestamps, passed explicitly where the
    source calls `Date.now()` / `new Date()`.
  * An `IMCPServer` handle is a state `σ` together with pure step functions
    (`Handle`): `getStatus`, `executeTool` (which may fail, returning
    `Except String ρ`, and transforms the handle state — this models the
    in-place mutation of the JS object), `healthCheck`.
  * Thrown `Error(message)` values are `Except.error message`; async/await
    sequencing is ordinary sequential evaluation, and `Promise.allSettled`
    fan-out over distinct map keys is a left-to-right fold (each probe task
    touches only its own key, so the fold is observationally the same as
    the settle-all join).
  * `Math.floor(Math.random() * n)` is an arbitrary index in `[0, n)`,
    modelled by quantifying over a seed `r : Nat` and using `r % n`.
-/

/-- `ServerStatus.load` of `src/src/types` (part_002): activeRequests /
totalRequests. -/
structure LoadInfo where
  activeRequests : Nat
  totalRequests : Nat
  deriving DecidableEq, Repr

/-- `ServerStatus` of `src/src/types` (part_002). `lastUpdate` is an
abstract timestamp; optional fields are `Option`. -/
structure ServerStatus where
  online : Bool
  lastUpdate : Nat
  responseTime : Option Nat
  error : Option String
  load : Option LoadInfo
  deriving DecidableEq, Repr

/-- An `IMCPServer` handle: state type `σ`, parameter type `π`, result type
`ρ`.  `executeTool` returns the mutated handle state together with the
result or the thrown message; `healthCheck` likewise. -/
structure Handle (σ π ρ : Type) where
  getStatus : σ → ServerStatus
  execTool : σ → String → π → σ × Except String ρ
  healthCheck : σ → σ × Except String Bool

/-! ## JS `Map` as an association list -/

/-- `Map.get`. -/
def mapGet (m : List (String × α)) (k : String) : Option α :=
  match m with
  | [] => none
  | (k0, v) :: rest => if k0 = k then some v else mapGet rest k

/-- Remove every binding of `k`. -/
def mapErase (m : List (String × α)) (k : String) : List (String × α) :=
  match m with
  | [] => []
  | (k0, v) :: rest => if k0 = k then mapErase rest k else (k0, v) :: mapErase rest k

/-- `Map.set`: drop any existing binding of `k`, add the new one. -/
def mapSet (m : List (String × α)) (k : String) (v : α) : List (String × α) :=
  mapErase m k ++ [(k, v)]

/-- `Map.delete`. -/
def mapDelete (m : List (String × α)) (k : String) : List (String × α) :=
  mapErase m k

/-- No key bound twice. -/
def nodupKeys (m : List (String × α)) : Prop :=
  (m.map Prod.fst).Nodup

theorem mapGet_mapErase (m : List (String × α)) (k k2 : String) :
    mapGet (mapErase m k) k2 = if k2 = k then none else mapGet m k2 := by
  induction m with
  | nil => simp [mapGet, mapErase]
  | cons p rest ih =>
    cases p with
    | mk k0 v0 =>
      by_cases hk : k0 = k
      · subst hk
        rw [mapErase, if_pos rfl, ih]
        by_cases h2 : k2 = k0
        · simp [h2]
        · have h3 : ¬ k0 = k2 := fun hh => h2 hh.symm
          simp [h2, h3, mapGet]
      · rw [mapErase, if_neg hk]
        by_cases h2 : k0 = k2
        · subst h2
          simp [mapGet, fun hh : k0 = k => hk hh]
        · simp [mapGet, h2, ih]

theorem mapGet_append_none (m1 m2 : List (String × α)) (k : String)
    (h : mapGet m1 k = none) : mapGet (m1 ++ m2) k = mapGet m2 k := by
  induction m1 with
  | nil => simp
  | cons p rest ih =>
    cases p with
    | mk k0 v0 =>
      by_cases h0 : k0 = k
      · simp [mapGet, h0] at h
      · simp only [mapGet, h0, if_false] at h
        simpa [mapGet, h0] using ih h

theorem mapGet_append_some (m1 m2 : List (String × α)) (k : String) (v : α)
    (h : mapGet m1 k = some v) : mapGet (m1 ++ m2) k = some v := by
  induction m1 with
  | nil => simp [mapGet] at h
  | cons p rest ih =>
    cases p with
    | mk k0 v0 =>
      by_cases h0 : k0 = k
      · simp only [mapGet, h0, if_true, if_pos] at h ⊢
        simpa [mapGet, h0] using h
      · simp only [mapGet, h0, if_false] at h
        simpa [mapGet, h0] using ih h

theorem mapGet_mapSet_self (m : List (String × α)) (k : String) (v : α) :
    mapGet (mapSet m k v) k = some v := by
  unfold mapSet
  rw [mapGet_append_none _ _ _ (by simp [mapGet_mapErase])]
  simp [mapGet]

theorem mapGet_mapSet_ne (m : List (String × α)) (k k2 : String) (v : α)
    (h : k2 ≠ k) : mapGet (mapSet m k v) k2 = mapGet m k2 := by
  unfold mapSet
  cases hv : mapGet m k2 with
  | none =>
    rw [mapGet_append_none _ _ _ (by simp [mapGet_mapErase, h, hv])]
    have h3 : ¬ k = k2 := fun hh => h hh.symm
    simp [mapGet, h3, hv]
  | some v2 =>
    exact mapGet_append_some _ _ _ _ (by simp [mapGet_mapErase, h, hv])

theorem mapGet_mapDelete_self (m : List (String × α)) (k : String) :
    mapGet (mapDelete m k) k = none := by
  simp [mapDelete, mapGet_mapErase]

theorem mapGet_mapDelete_ne (m : List (String × α)) (k k2 : String)
    (h : k2 ≠ k) : mapGet (mapDelete m k) k2 = mapGet m k2 := by
  simp [mapDelete, mapGet_mapErase, h]

theorem mapGet_isSome_of_mem (m : List (String × α)) (e : String × α)
    (h : e ∈ m) : (mapGet m e.1).isSome := by
  induction m with
  | nil => cases h
  | cons p rest ih =>
    cases p with
    | mk k0 v0 =>
      by_cases h0 : k0 = e.1
      · simp [mapGet, h0]
      · rcases List.mem_cons.mp h with h1 | h1
        · subst h1; simp at h0
        · simpa [mapGet, h0] using ih h1

/-! ## Registry (`ServerRegistryService`) -/

/-- Registry state: the two parallel maps of `ServerRegistryService`
(`servers : Map<string, IMCPServer>` and
`serverStatuses : Map<string, ServerStatus>`). -/
structure RegistryState (σ : Type) where
  servers : List (String × σ)
  serverStatuses : List (String × ServerStatus)

/-- The registry before any registration. -/
def emptyRegistry {σ : Type} : RegistryState σ :=
  { servers := [], serverStatuses := [] }

/-- Message of the error thrown by `getServer` for an unknown name
(`ServiceNotFound`). -/
def serviceNotFoundMsg (name : String) (names : List String) : String :=
  "MCP服务 \x27" ++ name ++ "\x27 未找到。可用服务: " ++ String.intercalate ", " names

/-- Message of the error thrown by `executeTool` when the handle reports
itself offline (`ServiceOffline`). -/
def serviceOfflineMsg (name : String) : String :=
  "服务 \x27" ++ name ++ "\x27 当前不可用"

/-- `getServerNames`. -/
def getServerNames {σ : Type} (st : RegistryState σ) : List String :=
  st.servers.map Prod.fst

/-- `getServerStatus` (the status cache read; `null` becomes `none`). -/
def getServerStatus {σ : Type} (st : RegistryState σ) (name : String) :
    Option ServerStatus :=
  mapGet st.serverStatuses name

/-- `register(name, server)`: sets both maps; the status is initialised from
`server.getStatus()`. -/
def register {σ π ρ : Type} (h : Handle σ π ρ) (st : RegistryState σ)
    (name : String) (srv : σ) : RegistryState σ :=
  { servers := mapSet st.servers name srv,
    serverStatuses := mapSet st.serverStatuses name (h.getStatus srv) }

/-- `unregister(name)`: removes both entries when the name is present. -/
def unregister {σ : Type} (st : RegistryState σ) (name : String) :
    RegistryState σ :=
  if (mapGet st.servers name).isSome then
    { servers := mapDelete st.servers name,
      serverStatuses := mapDelete st.serverStatuses name }
  else st

/-- `executeTool(serverName, toolName, params)`.  `startTime` and `endTime`
are the two `Date.now()` readings.  Mirrors the source: resolve the handle
(throwing `ServiceNotFound`); read the handle's **live** `getStatus()`; if
it is offline, throw — the local `catch` then re-reads `getStatus()` and
overwrites the cached status with `online=false` and the thrown message; if
it is online, run `server.executeTool`; on success cache the pre-call
status with the measured `responseTime`; on failure cache the post-call
`getStatus()` with `online=false` and the failure message; rethrow. -/
def executeTool {σ π ρ : Type} (h : Handle σ π ρ) (st : RegistryState σ)
    (serverName toolName : String) (params : π) (startTime endTime : Nat) :
    RegistryState σ × Except String ρ :=
  match mapGet st.servers serverName with
  | none => (st, Except.error (serviceNotFoundMsg serverName (getServerNames st)))
  | some server =>
    let status := h.getStatus server
    if status.online = false then
      let caught := h.getStatus server
      ({ st with
         serverStatuses := mapSet st.serverStatuses serverName
           { caught with online := false, error := some (serviceOfflineMsg serverName) } },
       Except.error (serviceOfflineMsg serverName))
    else
      match h.execTool server toolName params with
      | (server2, Except.ok result) =>
        let responseTime := endTime - startTime
        ({ servers := mapSet st.servers serverName server2,
           serverStatuses := mapSet st.serverStatuses serverName
             { status with responseTime := some responseTime } },
         Except.ok result)
      | (server2, Except.error msg) =>
        let caught := h.getStatus server2
        ({ servers := mapSet st.servers serverName server2,
           serverStatuses := mapSet st.serverStatuses serverName
             { caught with online := false, error := some msg } },
         Except.error msg)

/-! ## Health-probe loop (`performHealthCheck`) -/

/-- The generic probe-failure message written when a probe resolves
unhealthy. -/
def probeFailedMsg : String := "健康检查失败"

/-- The per-service status update of one probe outcome: the two branches
inside the tick's per-service task, guarded by `if (currentStatus)`. -/
def probeOne (now : Nat) (cur : Option ServerStatus)
    (outcome : Except String Bool) : Option ServerStatus :=
  match cur with
  | none => none
  | some currentStatus =>
    match outcome with
    | Except.ok isHealthy =>
      some { currentStatus with
             online := isHealthy,
             lastUpdate := now,
             error := if isHealthy then none else some probeFailedMsg }
    | Except.error msg =>
      some { currentStatus with
             online := false,
             lastUpdate := now,
             error := some msg }

/-- One service's probe task inside the tick. -/
def healthOne {σ π ρ : Type} (h : Handle σ π ρ) (now : Nat) (name : String)
    (srv : σ) (st : RegistryState σ) : RegistryState σ :=
  let (srv2, outcome) := h.healthCheck srv
  let st1 := { st with servers := mapSet st.servers name srv2 }
  match probeOne now (mapGet st.serverStatuses name) outcome with
  | none => st1
  | some newStatus =>
    { st1 with serverStatuses := mapSet st1.serverStatuses name newStatus }

/-- Run the probe tasks of a list of entries.  Each task touches only its
own key, so this left-to-right fold is observationally the settle-all join
of `Promise.allSettled`. -/
def healthSteps {σ π ρ : Type} (h : Handle σ π ρ) (now : Nat) :
    List (String × σ) → RegistryState σ → RegistryState σ
  | [], st => st
  | (name, srv) :: rest, st => healthSteps h now rest (healthOne h now name srv st)

/-- `performHealthCheck`: probes the snapshot of all registered services. -/
def performHealthCheck {σ π ρ : Type} (h : Handle σ π ρ) (now : Nat)
    (st : RegistryState σ) : RegistryState σ :=
  healthSteps h now st.servers st

/-! ## Operation sequences over the registry -/

/-- A registry operation, for stating invariants over all call sequences. -/
inductive RegOp (σ π : Type) where
  | register (name : String) (srv : σ)
  | unregister (name : String)
  | execTool (name toolName : String) (params : π) (startTime endTime : Nat)
  | healthTick (now : Nat)

/-- Apply one operation to the registry state. -/
def applyOp {σ π ρ : Type} (h : Handle σ π ρ) (st : RegistryState σ) :
    RegOp σ π → RegistryState σ
  | RegOp.register name srv => register h st name srv
  | RegOp.unregister name => unregister st name
  | RegOp.execTool name toolName params t0 t1 =>
    (executeTool h st name toolName params t0 t1).1
  | RegOp.healthTick now => performHealthCheck h now st

/-- Apply a sequence of operations. -/
def applyOps {σ π ρ : Type} (h : Handle σ π ρ) (st : RegistryState σ)
    (ops : List (RegOp σ π)) : RegistryState σ :=
  ops.foldl (applyOp h) st

/-- The two maps are keyed identically. -/
def keysAligned {σ : Type} (st : RegistryState σ) : Prop :=
  ∀ k, (mapGet st.servers k).isSome ↔ (mapGet st.serverStatuses k).isSome

/-! ## Load balancer (`LoadBalancer` / `LoadBalancerService`) -/

/-- `LoadBalancingStrategy`. -/
inductive LoadBalancingStrategy where
  | round_robin
  | random
  | least_connections
  deriving DecidableEq, Repr

/-- Balancer state: the active policy and the round-robin cursor. -/
structure LoadBalancer where
  strategy : LoadBalancingStrategy
  roundRobinIndex : Nat
  deriving DecidableEq, Repr

/-- Message thrown when the candidate list is empty. -/
def noInstanceMsg : String := "没有可用的服务实例"

/-- Message thrown when no candidate is online (`NoAvailableInstance`). -/
def noOnlineInstanceMsg : String := "没有在线的服务实例"

/-- `load?.activeRequests || 0`. -/
def loadActiveRequests (status : ServerStatus) : Nat :=
  match status.load with
  | some l => l.activeRequests
  | none => 0

/-- `selectRoundRobin`: pick index `roundRobinIndex % length`, then
increment the cursor. -/
def selectRoundRobin {S : Type} (lb : LoadBalancer) (servers : List S) :
    Except String (S × LoadBalancer) :=
  if h : servers.length = 0 then Except.error noInstanceMsg
  else
    Except.ok
      (servers.get ⟨lb.roundRobinIndex % servers.length,
         Nat.mod_lt _ (Nat.pos_of_ne_zero h)⟩,
       { lb with roundRobinIndex := lb.roundRobinIndex + 1 })

/-- `selectRandom`: `Math.floor(Math.random() * length)` is an arbitrary
index `< length`, modelled as `r % length` for an arbitrary seed `r`. -/
def selectRandom {S : Type} (servers : List S) (r : Nat) : Except String S :=
  if h : servers.length = 0 then Except.error noInstanceMsg
  else
    Except.ok (servers.get ⟨r % servers.length, Nat.mod_lt _ (Nat.pos_of_ne_zero h)⟩)

/-- `selectLeastConnections`: `reduce` keeping the candidate with strictly
fewer `activeRequests` (ties keep the earlier one). -/
def selectLeastConnections {S : Type} (getStatus : S → ServerStatus)
    (servers : List S) : Except String S :=
  match servers with
  | [] => Except.error noInstanceMsg
  | first :: rest =>
    Except.ok (rest.foldl
      (fun least current =>
        if loadActiveRequests (getStatus current) <
            loadActiveRequests (getStatus least) then current else least)
      first)

/-- `selectServer`: reject an empty list, filter to the online candidates,
reject if none, then dispatch on the strategy.  The updated balancer state
is returned alongside the choice. -/
def selectServer {S : Type} (getStatus : S → ServerStatus) (lb : LoadBalancer)
    (servers : List S) (r : Nat) : Except String (S × LoadBalancer) :=
  if servers.length = 0 then Except.error noInstanceMsg
  else
    let availableServers := servers.filter (fun s => (getStatus s).online)
    if availableServers.length = 0 then Except.error noOnlineInstanceMsg
    else
      match lb.strategy with
      | LoadBalancingStrategy.round_robin => selectRoundRobin lb availableServers
      | LoadBalancingStrategy.random =>
        match selectRandom availableServers r with
        | Except.ok s => Except.ok (s, lb)
        | Except.error e => Except.error e
      | LoadBalancingStrategy.least_connections =>
        match selectLeastConnections getStatus availableServers with
        | Except.ok s => Except.ok (s, lb)
        | Except.error e => Except.error e

/-- `setStrategy`: install the policy and reset the round-robin cursor. -/
def setStrategy (lb : LoadBalancer) (strategy : LoadBalancingStrategy) :
    LoadBalancer :=
  { strategy := strategy, roundRobinIndex := 0 }

/-- Repeatedly call `selectServer` on an unchanged candidate list,
collecting the selections. -/
def selectRuns {S : Type} (getStatus : S → ServerStatus) (lb : LoadBalancer)
    (servers : List S) (r : Nat) : Nat → List S × LoadBalancer
  | 0 => ([], lb)
  | Nat.succ k =>
    match selectServer getStatus lb servers r with
    | Except.error _ => ([], lb)
    | Except.ok (s, lb2) =>
      let rec2 := selectRuns getStatus lb2 servers r k
      (s :: rec2.1, rec2.2)

/-! ## The `BaziServer` handle (counter discipline around `executeTool`) -/

/-- The mutable fields of `BaziServer`: its published `status` and the two
private request counters. -/
structure BaziState where
  status : ServerStatus
  totalRequests : Nat
  activeRequests : Nat
  deriving DecidableEq, Repr

/-- `BaziServer.updateStatus`: publish a fresh status reflecting the
current counters. -/
def baziUpdateStatus (now : Nat) (s : BaziState) : BaziState :=
  { s with status :=
      { online := true, lastUpdate := now, responseTime := none, error := none,
        load := some { activeRequests := s.activeRequests,
                       totalRequests := s.totalRequests } } }

/-- `BaziServer.executeTool`: increment `activeRequests` and
`totalRequests` on entry; run the tool body (opaque domain logic, may
throw); in `finally`, decrement `activeRequests` and `updateStatus()` on
every exit path; return the result or rethrow. -/
def baziExecTool {π ρ : Type} (body : String → π → Except String ρ) (now : Nat)
    (s : BaziState) (toolName : String) (p : π) : BaziState × Except String ρ :=
  let s1 := { s with activeRequests := s.activeRequests + 1,
                     totalRequests := s.totalRequests + 1 }
  let result := body toolName p
  let s2 := baziUpdateStatus now { s1 with activeRequests := s1.activeRequests - 1 }
  (s2, result)

/-- The `BaziServer` handle: `getStatus` returns the published status
snapshot, `healthCheck` never throws (it catches internally and resolves to
a boolean) and does not touch the counters. -/
def baziHandle {π ρ : Type} (body : String → π → Except String ρ) (now : Nat)
    (probeResult : Bool) : Handle BaziState π ρ :=
  { getStatus := fun s => s.status,
    execTool := fun s toolName p => baziExecTool body now s toolName p,
    healthCheck := fun s => (s, Except.ok probeResult) }

/-! ## Concrete instances used by counterexamples and witnesses -/

/-- A status reporting online with no load data. -/
def onlineStatus0 : ServerStatus :=
  { online := true, lastUpdate := 0, responseTime := none, error := none,
    load := none }

/-- A cached status reporting offline with a recorded error. -/
def cachedOffline0 : ServerStatus :=
  { online := false, lastUpdate := 0, responseTime := none,
    error := some "cached boom", load := none }

/-- A trivial handle whose live status is always online and whose
`executeTool` always succeeds. -/
def okHandle : Handle Unit Unit Unit :=
  { getStatus := fun _ => onlineStatus0,
    execTool := fun s _ _ => (s, Except.ok ()),
    healthCheck := fun s => (s, Except.ok true) }

/-- A handle whose live status is always online and whose `executeTool`
always throws `"boom"`. -/
def boomHandle : Handle Unit Unit Unit :=
  { getStatus := fun _ => onlineStatus0,
    execTool := fun s _ _ => (s, Except.error "boom"),
    healthCheck := fun s => (s, Except.ok true) }

/-- One registered service `svc` whose cached status is `cachedOffline0`. -/
def regCachedOffline : RegistryState Unit :=
  { servers := [("svc", ())], serverStatuses := [("svc", cachedOffline0)] }

/-- One registered service `svc` whose cached status is `onlineStatus0`. -/
def regCachedOnline : RegistryState Unit :=
  { servers := [("svc", ())], serverStatuses := [("svc", onlineStatus0)] }

/-- C1 counterexample: the cached status of `svc` is offline (with a cached
error string), yet `executeTool` succeeds — the handle IS invoked and no
`ServiceOffline` failure is raised, because the source consults the
handle's live `getStatus()`, not the cache. -/
theorem c1_counterexample :
    getServerStatus regCachedOffline "svc" = some cachedOffline0
    ∧ cachedOffline0.online = false
    ∧ (executeTool okHandle regCachedOffline "svc" "op1" () 0 0).2 = Except.ok () :=
  ⟨rfl, rfl, rfl⟩

/-- C1 (amended): `executeTool` resolves the handle and then reads the
handle's **live** `getStatus()` — not the cached status, which plays no
role in the outcome; if the live status is offline it fails with the fixed
`ServiceOffline` message (the cached error string is not attached) without
invoking the handle's execute (the outcome is the same for any handle that
agrees on `getStatus`); otherwise it invokes `handle.execute` and returns
its outcome. -/
theorem c1_executeTool_uses_live_status {σ π ρ : Type} (h : Handle σ π ρ)
    (st : RegistryState σ) (name toolName : String) (p : π) (t0 t1 : Nat)
    (srv : σ) (hres : mapGet st.servers name = some srv) :
    ((h.getStatus srv).online = false →
       (executeTool h st name toolName p t0 t1).2
         = Except.error (serviceOfflineMsg name)
       ∧ ∀ h2 : Handle σ π ρ, h2.getStatus = h.getStatus →
           executeTool h2 st name toolName p t0 t1
             = executeTool h st name toolName p t0 t1)
    ∧ ((h.getStatus srv).online = true →
       (executeTool h st name toolName p t0 t1).2 = (h.execTool srv toolName p).2)
    ∧ (∀ cache2, (executeTool h { st with serverStatuses := cache2 }
          name toolName p t0 t1).2
         = (executeTool h st name toolName p t0 t1).2) := by
  refine ⟨?_, ?_, ?_⟩
  · intro hoff
    constructor
    · simp [executeTool, hres, hoff]
    · intro h2 hgs
      simp [executeTool, hres, hgs, hoff]
  · intro hon
    cases hex : h.execTool srv toolName p with
    | mk srv2 out =>
      cases out with
      | ok r => simp [executeTool, hres, hon, hex]
      | error msg => simp [executeTool, hres, hon, hex]
  · intro cache2
    show (executeTool h { servers := st.servers, serverStatuses := cache2 }
        name toolName p t0 t1).2 = _
    cases hon : (h.getStatus srv).online with
    | false => simp [executeTool, hres, hon, getServerNames]
    | true =>
      cases hex : h.execTool srv toolName p with
      | mk srv2 out =>
        cases out with
        | ok r => simp [executeTool, hres, hon, hex, getServerNames]
        | error msg => simp [executeTool, hres, hon, hex, getServerNames]

/-- C1 witness: at a concrete registered online handle, the second branch
of the amended theorem applies and the call's outcome is the handle's. -/
theorem c1_witness :
    (executeTool okHandle regCachedOffline "svc" "op1" () 0 0).2
      = (okHandle.execTool () "op1" ()).2 :=
  (c1_executeTool_uses_live_status okHandle regCachedOffline "svc" "op1" () 0 0 ()
    rfl).2.1 rfl

/-- C10: calling `executeTool` for a registered service whose handle
reports `online == false` throws the `ServiceOffline` error, never invokes
the handle's execute (the whole result is unchanged under any handle
agreeing on `getStatus`), leaves the handle map untouched, and — rather
than leaving registry state unchanged — overwrites the cached status with
`online := false` and the rejection message. -/
theorem c10_offline_rejection_mutates_cache {σ π ρ : Type} (h : Handle σ π ρ)
    (st : RegistryState σ) (name toolName : String) (p : π) (t0 t1 : Nat)
    (srv : σ) (hres : mapGet st.servers name = some srv)
    (hoff : (h.getStatus srv).online = false) :
    (executeTool h st name toolName p t0 t1).2
      = Except.error (serviceOfflineMsg name)
    ∧ getServerStatus (executeTool h st name toolName p t0 t1).1 name
      = some { (h.getStatus srv) with
               online := false,
               error := some (serviceOfflineMsg name) }
    ∧ (executeTool h st name toolName p t0 t1).1.servers = st.servers
    ∧ ∀ h2 : Handle σ π ρ, h2.getStatus = h.getStatus →
        executeTool h2 st name toolName p t0 t1
          = executeTool h st name toolName p t0 t1 := by
  refine ⟨?_, ?_, ?_, ?_⟩
  · simp [executeTool, hres, hoff]
  · simp [executeTool, hres, hoff, getServerStatus, mapGet_mapSet_self]
  · simp [executeTool, hres, hoff]
  · intro h2 hgs
    simp [executeTool, hres, hgs, hoff]

/-- A handle that always reports itself offline. -/
def downHandle : Handle Unit Unit Unit :=
  { getStatus := fun _ =>
      { online := false, lastUpdate := 3, responseTime := none,
        error := some "down", load := none },
    execTool := fun s _ _ => (s, Except.ok ()),
    healthCheck := fun s => (s, Except.ok false) }

/-- C10 witness: concrete instance of the offline-rejection behaviour. -/
theorem c10_witness :
    (executeTool downHandle regCachedOnline "svc" "op1" () 0 0).2
      = Except.error (serviceOfflineMsg "svc")
    ∧ getServerStatus (executeTool downHandle regCachedOnline "svc" "op1" () 0 0).1 "svc"
      = some { (downHandle.getStatus ()) with
               online := false,
               error := some (serviceOfflineMsg "svc") } :=
  ⟨(c10_offline_rejection_mutates_cache downHandle regCachedOnline "svc" "op1" () 0 0 ()
      rfl rfl).1,
   (c10_offline_rejection_mutates_cache downHandle regCachedOnline "svc" "op1" () 0 0 ()
      rfl rfl).2.1⟩

/-! ## Health-tick helper lemmas -/

theorem mapGet_mem_of_eq_some (m : List (String × α)) (k : String) (v : α)
    (h : mapGet m k = some v) : (k, v) ∈ m := by
  induction m with
  | nil => simp [mapGet] at h
  | cons p rest ih =>
    cases p with
    | mk k0 v0 =>
      by_cases h0 : k0 = k
      · subst h0
        simp [mapGet] at h
        simp [h]
      · simp only [mapGet, h0, if_false] at h
        exact List.mem_cons_of_mem _ (ih h)

theorem mapGet_eq_none_of_not_mem_keys (m : List (String × α)) (k : String)
    (h : k ∉ m.map Prod.fst) : mapGet m k = none := by
  induction m with
  | nil => rfl
  | cons p rest ih =>
    cases p with
    | mk k0 v0 =>
      simp only [List.map_cons, List.mem_cons] at h
      push_neg at h
      have hne : ¬ k0 = k := fun hh => h.1 hh.symm
      rw [mapGet, if_neg hne]
      exact ih h.2

theorem healthOne_statuses_other {σ π ρ : Type} (h : Handle σ π ρ) (now : Nat)
    (name : String) (srv : σ) (st : RegistryState σ) (k : String)
    (hk : k ≠ name) :
    mapGet (healthOne h now name srv st).serverStatuses k
      = mapGet st.serverStatuses k := by
  unfold healthOne
  cases hhc : h.healthCheck srv with
  | mk srv2 outcome =>
    cases hp : probeOne now (mapGet st.serverStatuses name) outcome with
    | none => simp [hhc, hp]
    | some ns => simp [hhc, hp, mapGet_mapSet_ne _ _ _ _ hk]

theorem healthOne_statuses_self {σ π ρ : Type} (h : Handle σ π ρ) (now : Nat)
    (name : String) (srv : σ) (st : RegistryState σ) :
    mapGet (healthOne h now name srv st).serverStatuses name
      = probeOne now (mapGet st.serverStatuses name) (h.healthCheck srv).2 := by
  unfold healthOne
  cases hhc : h.healthCheck srv with
  | mk srv2 outcome =>
    cases hcur : mapGet st.serverStatuses name with
    | none => simp [hhc, hcur, probeOne]
    | some c =>
      cases outcome with
      | ok b => simp [hhc, hcur, probeOne, mapGet_mapSet_self]
      | error msg => simp [hhc, hcur, probeOne, mapGet_mapSet_self]

theorem healthOne_servers_other {σ π ρ : Type} (h : Handle σ π ρ) (now : Nat)
    (name : String) (srv : σ) (st : RegistryState σ) (k : String)
    (hk : k ≠ name) :
    mapGet (healthOne h now name srv st).servers k = mapGet st.servers k := by
  unfold healthOne
  cases hhc : h.healthCheck srv with
  | mk srv2 outcome =>
    cases hp : probeOne now (mapGet st.serverStatuses name) outcome with
    | none => simp [hhc, hp, mapGet_mapSet_ne _ _ _ _ hk]
    | some ns => simp [hhc, hp, mapGet_mapSet_ne _ _ _ _ hk]

theorem healthSteps_statuses_not_mem {σ π ρ : Type} (h : Handle σ π ρ)
    (now : Nat) (entries : List (String × σ)) (st : RegistryState σ)
    (k : String) (hk : k ∉ entries.map Prod.fst) :
    mapGet (healthSteps h now entries st).serverStatuses k
      = mapGet st.serverStatuses k := by
  induction entries generalizing st with
  | nil => rfl
  | cons e rest ih =>
    cases e with
    | mk n0 s0 =>
      simp only [List.map_cons, List.mem_cons] at hk
      push_neg at hk
      rw [healthSteps, ih _ hk.2, healthOne_statuses_other _ _ _ _ _ _ hk.1]

theorem healthSteps_statuses_mem {σ π ρ : Type} (h : Handle σ π ρ) (now : Nat)
    (entries : List (String × σ)) (st : RegistryState σ) (name : String)
    (srv : σ) (hnd : (entries.map Prod.fst).Nodup)
    (hmem : (name, srv) ∈ entries) :
    mapGet (healthSteps h now entries st).serverStatuses name
      = probeOne now (mapGet st.serverStatuses name) (h.healthCheck srv).2 := by
  induction entries generalizing st with
  | nil => cases hmem
  | cons e rest ih =>
    cases e with
    | mk n0 s0 =>
      simp only [List.map_cons, List.nodup_cons] at hnd
      rcases List.mem_cons.mp hmem with hh | hh
      · have hn : n0 = name ∧ s0 = srv := by
          have := Prod.mk.injEq n0 s0 name srv ▸ hh.symm
          exact ⟨congrArg Prod.fst hh.symm, congrArg Prod.snd hh.symm⟩
        rcases hn with ⟨hn1, hn2⟩
        subst hn1; subst hn2
        rw [healthSteps, healthSteps_statuses_not_mem _ _ _ _ _ hnd.1,
          healthOne_statuses_self]
      · have hne : name ≠ n0 := by
          intro heq
          subst heq
          exact hnd.1 (List.mem_map.mpr ⟨(name, srv), hh, rfl⟩)
        rw [healthSteps, ih _ hnd.2 hh, healthOne_statuses_other _ _ _ _ _ _ hne]

/-- C9: on a health tick, every registered service's cached status is
rewritten according to its **own** probe outcome only — the equation shows
the result for `name` depends only on `name`'s prior status and `name`'s
probe outcome, so one service's raised probe cannot prevent another's
update.  The `probeOne` equations spell the three outcomes out: a healthy
result sets `online := true` and clears the error, an unhealthy result sets
`online := false` with the generic probe-failed message, and a raised
probe sets `online := false` with the raised message. -/
theorem c9_health_tick_isolated {σ π ρ : Type} (h : Handle σ π ρ) (now : Nat)
    (st : RegistryState σ) (name : String) (srv : σ)
    (hnd : nodupKeys st.servers) (hres : mapGet st.servers name = some srv) :
    getServerStatus (performHealthCheck h now st) name
      = probeOne now (getServerStatus st name) (h.healthCheck srv).2
    ∧ (∀ s : ServerStatus, probeOne now (some s) (Except.ok true)
        = some { s with online := true, lastUpdate := now, error := none })
    ∧ (∀ s : ServerStatus, probeOne now (some s) (Except.ok false)
        = some { s with
                 online := false, lastUpdate := now,
                 error := some probeFailedMsg })
    ∧ (∀ (s : ServerStatus) (msg : String), probeOne now (some s) (Except.error msg)
        = some { s with online := false, lastUpdate := now, error := some msg }) := by
  refine ⟨?_, fun s => rfl, fun s => rfl, fun s msg => rfl⟩
  exact healthSteps_statuses_mem h now st.servers st name srv hnd
    (mapGet_mem_of_eq_some _ _ _ hres)

/-- A two-service registry: `svc` (online) and `aux` (online). -/
def regTwo : RegistryState Unit :=
  { servers := [("svc", ()), ("aux", ())],
    serverStatuses := [("svc", onlineStatus0), ("aux", onlineStatus0)] }

/-- A handle whose probe always raises `"probe crash"`. -/
def crashProbeHandle : Handle Unit Unit Unit :=
  { getStatus := fun _ => onlineStatus0,
    execTool := fun s _ _ => (s, Except.ok ()),
    healthCheck := fun s => (s, Except.error "probe crash") }

/-- C9 witness: a concrete tick over two services with a raising probe;
`svc`'s status is exactly the per-service update of its own outcome. -/
theorem c9_witness :
    getServerStatus (performHealthCheck crashProbeHandle 7 regTwo) "svc"
      = probeOne 7 (getServerStatus regTwo "svc")
          (crashProbeHandle.healthCheck ()).2 :=
  (c9_health_tick_isolated crashProbeHandle 7 regTwo "svc" () (by unfold nodupKeys; decide) rfl).1

/-! ## C2: execution failure marks the service offline -/

/-- The cached status of `name` exists and reports offline. -/
def offlineAt {σ : Type} (st : RegistryState σ) (name : String) : Prop :=
  ∃ s, getServerStatus st name = some s ∧ s.online = false

/-- The operations that can legitimately bring `name` back online (or
replace/remove its entry): re-registration, unregistration, a successful
`executeTool` call on `name`, or a health tick whose probe of `name`
resolves healthy. -/
def revives {σ π ρ : Type} (h : Handle σ π ρ) (st : RegistryState σ)
    (name : String) : RegOp σ π → Prop
  | RegOp.register n _ => n = name
  | RegOp.unregister n => n = name
  | RegOp.execTool n toolName p t0 t1 =>
    n = name ∧ ∃ r2, (executeTool h st n toolName p t0 t1).2 = Except.ok r2
  | RegOp.healthTick _ =>
    ∃ srv, mapGet st.servers name = some srv
      ∧ (h.healthCheck srv).2 = Except.ok true

/-- C2 counterexample: at a concrete failing call whose wall clock reads 5
at failure time, the cached `lastUpdate` is still the handle-reported 0 —
the registry's failure path copies `lastUpdate` from `getStatus()` and
does not set it to the current time. -/
theorem c2_counterexample :
    (getServerStatus (executeTool boomHandle regCachedOnline "svc" "op1" () 0 5).1
        "svc").map ServerStatus.lastUpdate = some 0
    ∧ (5 : Nat) ≠ 0 :=
  ⟨rfl, by decide⟩

/-- C2 (amended): when the underlying execution fails, the cached status
for the service becomes the handle's post-call `getStatus()` overridden
with `online := false` and `error := <failure message>` — `lastUpdate` is
whatever the handle reports, not the current time — and the cached status
then stays offline under every subsequent operation that is not a
re-registration/unregistration of the name, a successful call on it, or a
health probe of it resolving healthy. -/
theorem c2_failure_marks_offline {σ π ρ : Type} (h : Handle σ π ρ)
    (st : RegistryState σ) (name : String) :
    (∀ (srv srv2 : σ) (toolName : String) (p : π) (t0 t1 : Nat) (msg : String),
       mapGet st.servers name = some srv →
       (h.getStatus srv).online = true →
       h.execTool srv toolName p = (srv2, Except.error msg) →
       getServerStatus (executeTool h st name toolName p t0 t1).1 name
         = some { (h.getStatus srv2) with online := false, error := some msg })
    ∧ (∀ op : RegOp σ π, nodupKeys st.servers → offlineAt st name →
         ¬ revives h st name op → offlineAt (applyOp h st op) name) := by
  constructor
  · intro srv srv2 toolName p t0 t1 msg hres hon hex
    simp [executeTool, hres, hon, hex, getServerStatus, mapGet_mapSet_self]
  · intro op hnd hoff hnr
    obtain ⟨s, hs, hso⟩ := hoff
    cases op with
    | register n srv =>
      have hne : name ≠ n := fun e => hnr e.symm
      exact ⟨s, by
        simpa [applyOp, register, getServerStatus, mapGet_mapSet_ne _ _ _ _ hne]
          using hs, hso⟩
    | unregister n =>
      have hne : name ≠ n := fun e => hnr e.symm
      by_cases hp : (mapGet st.servers n).isSome
      · exact ⟨s, by
          simpa [applyOp, unregister, hp, getServerStatus,
            mapGet_mapDelete_ne _ _ _ hne] using hs, hso⟩
      · exact ⟨s, by simpa [applyOp, unregister, hp, getServerStatus] using hs, hso⟩
    | execTool n toolName p t0 t1 =>
      by_cases hn : n = name
      · subst hn
        cases hsrv : mapGet st.servers n with
        | none => exact ⟨s, by simpa [applyOp, executeTool, hsrv] using hs, hso⟩
        | some srv =>
          cases hon : (h.getStatus srv).online with
          | false =>
            refine ⟨{ (h.getStatus srv) with
                      online := false,
                      error := some (serviceOfflineMsg n) }, ?_, rfl⟩
            simp [applyOp, executeTool, hsrv, hon, getServerStatus,
              mapGet_mapSet_self]
          | true =>
            cases hex : h.execTool srv toolName p with
            | mk srv2 out =>
              cases out with
              | ok r =>
                exact absurd ⟨rfl, ⟨r, by simp [executeTool, hsrv, hon, hex]⟩⟩ hnr
              | error msg =>
                refine ⟨{ (h.getStatus srv2) with
                          online := false, error := some msg }, ?_, rfl⟩
                simp [applyOp, executeTool, hsrv, hon, hex, getServerStatus,
                  mapGet_mapSet_self]
      · have hne : name ≠ n := fun e => hn e.symm
        have hkeep : getServerStatus (applyOp h st (RegOp.execTool n toolName p t0 t1)) name
            = getServerStatus st name := by
          cases hsrv : mapGet st.servers n with
          | none => simp [applyOp, executeTool, hsrv]
          | some srv =>
            cases hon : (h.getStatus srv).online with
            | false =>
              simp [applyOp, executeTool, hsrv, hon, getServerStatus,
                mapGet_mapSet_ne _ _ _ _ hne]
            | true =>
              cases hex : h.execTool srv toolName p with
              | mk srv2 out =>
                cases out with
                | ok r =>
                  simp [applyOp, executeTool, hsrv, hon, hex, getServerStatus,
                    mapGet_mapSet_ne _ _ _ _ hne]
                | error msg =>
                  simp [applyOp, executeTool, hsrv, hon, hex, getServerStatus,
                    mapGet_mapSet_ne _ _ _ _ hne]
        exact ⟨s, by rw [hkeep]; exact hs, hso⟩
    | healthTick now2 =>
      cases hsrv : mapGet st.servers name with
      | none =>
        have hnk : name ∉ st.servers.map Prod.fst := by
          intro hmem
          obtain ⟨e, he, hfst⟩ := List.mem_map.mp hmem
          have hsome := mapGet_isSome_of_mem st.servers e he
          rw [hfst, hsrv] at hsome
          cases hsome
        refine ⟨s, ?_, hso⟩
        show mapGet (performHealthCheck h now2 st).serverStatuses name = some s
        rw [performHealthCheck, healthSteps_statuses_not_mem _ _ _ _ _ hnk]
        exact hs
      | some srv =>
        have heq : getServerStatus (performHealthCheck h now2 st) name
            = probeOne now2 (getServerStatus st name) (h.healthCheck srv).2 :=
          healthSteps_statuses_mem h now2 st.servers st name srv hnd
            (mapGet_mem_of_eq_some _ _ _ hsrv)
        rw [getServerStatus] at hs
        cases hout : (h.healthCheck srv).2 with
        | ok b =>
          cases b with
          | true => exact absurd ⟨srv, hsrv, hout⟩ hnr
          | false =>
            refine ⟨{ s with
                      online := false, lastUpdate := now2,
                      error := some probeFailedMsg }, ?_, rfl⟩
            show getServerStatus (applyOp h st (RegOp.healthTick now2)) name = _
            rw [applyOp, heq, getServerStatus, hs, hout]
            rfl
        | error msg =>
          refine ⟨{ s with
                    online := false, lastUpdate := now2,
                    error := some msg }, ?_, rfl⟩
          show getServerStatus (applyOp h st (RegOp.healthTick now2)) name = _
          rw [applyOp, heq, getServerStatus, hs, hout]
          rfl

/-- C2 witness: the failure path at a concrete failing handle, and offline
persistence across a concrete non-reviving operation. -/
theorem c2_witness :
    getServerStatus (executeTool boomHandle regCachedOnline "svc" "op1" () 0 5).1 "svc"
      = some { (boomHandle.getStatus ()) with online := false, error := some "boom" }
    ∧ offlineAt (applyOp boomHandle regCachedOffline (RegOp.unregister "other")) "svc" :=
  ⟨(c2_failure_marks_offline boomHandle regCachedOnline "svc").1
     () () "op1" () 0 5 "boom" rfl rfl rfl,
   (c2_failure_marks_offline boomHandle regCachedOffline "svc").2
     (RegOp.unregister "other") (by unfold nodupKeys; decide)
     ⟨cachedOffline0, rfl, rfl⟩
     (by intro hc; simp [revives] at hc)⟩

/-! ## C3: the two maps always have the same key set -/

theorem keysAligned_empty {σ : Type} : keysAligned (emptyRegistry (σ := σ)) := by
  intro k
  simp [emptyRegistry, mapGet]

theorem keysAligned_register {σ π ρ : Type} (h : Handle σ π ρ)
    (st : RegistryState σ) (name : String) (srv : σ)
    (hal : keysAligned st) : keysAligned (register h st name srv) := by
  intro k
  by_cases hk : k = name
  · subst hk
    simp [register, mapGet_mapSet_self]
  · simp [register, mapGet_mapSet_ne _ _ _ _ hk, hal k]

theorem keysAligned_unregister {σ : Type} (st : RegistryState σ)
    (name : String) (hal : keysAligned st) :
    keysAligned (unregister st name) := by
  intro k
  by_cases hp : (mapGet st.servers name).isSome
  · by_cases hk : k = name
    · subst hk
      simp [unregister, hp, mapGet_mapDelete_self]
    · simp [unregister, hp, mapGet_mapDelete_ne _ _ _ hk, hal k]
  · simp [unregister, hp, hal k]

theorem keysAligned_executeTool {σ π ρ : Type} (h : Handle σ π ρ)
    (st : RegistryState σ) (name toolName : String) (p : π) (t0 t1 : Nat)
    (hal : keysAligned st) :
    keysAligned (executeTool h st name toolName p t0 t1).1 := by
  intro k
  cases hsrv : mapGet st.servers name with
  | none => simp [executeTool, hsrv, hal k]
  | some srv =>
    cases hon : (h.getStatus srv).online with
    | false =>
      by_cases hk : k = name
      · subst hk
        simp [executeTool, hsrv, hon, mapGet_mapSet_self]
      · simp [executeTool, hsrv, hon, mapGet_mapSet_ne _ _ _ _ hk, hal k]
    | true =>
      cases hex : h.execTool srv toolName p with
      | mk srv2 out =>
        cases out with
        | ok r =>
          by_cases hk : k = name
          · subst hk
            simp [executeTool, hsrv, hon, hex, mapGet_mapSet_self]
          · simp [executeTool, hsrv, hon, hex, mapGet_mapSet_ne _ _ _ _ hk, hal k]
        | error msg =>
          by_cases hk : k = name
          · subst hk
            simp [executeTool, hsrv, hon, hex, mapGet_mapSet_self]
          · simp [executeTool, hsrv, hon, hex, mapGet_mapSet_ne _ _ _ _ hk, hal k]

theorem probeOne_isSome_of_isSome (now : Nat) (cur : Option ServerStatus)
    (outcome : Except String Bool) (hc : cur.isSome) :
    (probeOne now cur outcome).isSome := by
  cases cur with
  | none => cases hc
  | some c =>
    cases outcome with
    | ok b => simp [probeOne]
    | error msg => simp [probeOne]

theorem healthOne_servers_isSome_iff {σ π ρ : Type} (h : Handle σ π ρ)
    (now : Nat) (name : String) (srv : σ) (st : RegistryState σ)
    (hname : (mapGet st.servers name).isSome) (k : String) :
    (mapGet (healthOne h now name srv st).servers k).isSome
      ↔ (mapGet st.servers k).isSome := by
  unfold healthOne
  cases hhc : h.healthCheck srv with
  | mk srv2 outcome =>
    cases hp : probeOne now (mapGet st.serverStatuses name) outcome with
    | none =>
      by_cases hk : k = name
      · subst hk; simp [hhc, hp, mapGet_mapSet_self, hname]
      · simp [hhc, hp, mapGet_mapSet_ne _ _ _ _ hk]
    | some ns =>
      by_cases hk : k = name
      · subst hk; simp [hhc, hp, mapGet_mapSet_self, hname]
      · simp [hhc, hp, mapGet_mapSet_ne _ _ _ _ hk]

theorem healthOne_keysAligned {σ π ρ : Type} (h : Handle σ π ρ) (now : Nat)
    (name : String) (srv : σ) (st : RegistryState σ)
    (hal : keysAligned st) (hname : (mapGet st.servers name).isSome) :
    keysAligned (healthOne h now name srv st) := by
  have hcur : (mapGet st.serverStatuses name).isSome := (hal name).mp hname
  intro k
  rw [healthOne_servers_isSome_iff h now name srv st hname k]
  unfold healthOne
  cases hhc : h.healthCheck srv with
  | mk srv2 outcome =>
    cases hp : probeOne now (mapGet st.serverStatuses name) outcome with
    | none =>
      have := probeOne_isSome_of_isSome now (mapGet st.serverStatuses name) outcome hcur
      rw [hp] at this
      cases this
    | some ns =>
      by_cases hk : k = name
      · subst hk
        simp [hhc, hp, mapGet_mapSet_self, hname]
      · simp [hhc, hp, mapGet_mapSet_ne _ _ _ _ hk, hal k]

theorem healthSteps_keysAligned {σ π ρ : Type} (h : Handle σ π ρ) (now : Nat)
    (entries : List (String × σ)) (st : RegistryState σ)
    (hal : keysAligned st)
    (hpres : ∀ e ∈ entries, (mapGet st.servers e.1).isSome) :
    keysAligned (healthSteps h now entries st) := by
  induction entries generalizing st with
  | nil => exact hal
  | cons e rest ih =>
    cases e with
    | mk n0 s0 =>
      have hn0 : (mapGet st.servers n0).isSome :=
        hpres (n0, s0) (List.mem_cons_self _ _)
      rw [healthSteps]
      refine ih (healthOne h now n0 s0 st)
        (healthOne_keysAligned h now n0 s0 st hal hn0) ?_
      intro e2 he2
      rw [healthOne_servers_isSome_iff h now n0 s0 st hn0 e2.1]
      exact hpres e2 (List.mem_cons_of_mem _ he2)

theorem keysAligned_applyOp {σ π ρ : Type} (h : Handle σ π ρ)
    (st : RegistryState σ) (op : RegOp σ π) (hal : keysAligned st) :
    keysAligned (applyOp h st op) := by
  cases op with
  | register name srv => exact keysAligned_register h st name srv hal
  | unregister name => exact keysAligned_unregister st name hal
  | execTool name toolName p t0 t1 =>
    exact keysAligned_executeTool h st name toolName p t0 t1 hal
  | healthTick now =>
    exact healthSteps_keysAligned h now st.servers st hal
      (fun e he => mapGet_isSome_of_mem st.servers e he)

/-- C3: starting from the empty registry, after every sequence of
register / unregister / executeTool / health-tick operations the handle
map and the status map are keyed identically: a name is in one exactly
when it is in the other. -/
theorem c3_key_sets_aligned {σ π ρ : Type} (h : Handle σ π ρ)
    (ops : List (RegOp σ π)) :
    keysAligned (applyOps h emptyRegistry ops) := by
  suffices hstep : ∀ (st : RegistryState σ), keysAligned st →
      keysAligned (applyOps h st ops) from
    hstep emptyRegistry keysAligned_empty
  induction ops with
  | nil => intro st hal; exact hal
  | cons op rest ih =>
    intro st hal
    exact ih (applyOp h st op) (keysAligned_applyOp h st op hal)

/-! ## C4: `activeRequests` returns to its pre-call value -/

/-- C4: for a registered `BaziServer`-style handle (counters are acquired
before the tool body and released in `finally` on every exit path, and the
published status reflects the counters), one `executeTool` call — whether
it succeeds, fails in the tool body, or is rejected offline — leaves the
handle's `activeRequests` counter at its pre-call value, and the cached
status after the call reports that same pre-call `activeRequests`. -/
theorem c4_counters_never_leak {π ρ : Type} (body : String → π → Except String ρ)
    (now : Nat) (probeResult : Bool) (st : RegistryState BaziState)
    (name toolName : String) (p : π) (t0 t1 : Nat) (s0 : BaziState)
    (hres : mapGet st.servers name = some s0)
    (hsync : s0.status.load = some { activeRequests := s0.activeRequests,
                                     totalRequests := s0.totalRequests }) :
    (∃ s1, mapGet (executeTool (baziHandle body now probeResult) st
          name toolName p t0 t1).1.servers name = some s1
       ∧ s1.activeRequests = s0.activeRequests)
    ∧ (∃ cs, getServerStatus (executeTool (baziHandle body now probeResult) st
          name toolName p t0 t1).1 name = some cs
       ∧ loadActiveRequests cs = s0.activeRequests) := by
  cases hon : s0.status.online with
  | false =>
    constructor
    · exact ⟨s0, by simp [executeTool, hres, baziHandle, hon], rfl⟩
    · refine ⟨{ s0.status with
                online := false,
                error := some (serviceOfflineMsg name) }, ?_, ?_⟩
      · simp [executeTool, hres, baziHandle, hon, getServerStatus,
          mapGet_mapSet_self]
      · simp [loadActiveRequests, hsync]
  | true =>
    cases hb : body toolName p with
    | ok r =>
      constructor
      · refine ⟨baziUpdateStatus now
          { s0 with activeRequests := s0.activeRequests + 1 - 1,
                    totalRequests := s0.totalRequests + 1 }, ?_, ?_⟩
        · simp [executeTool, hres, baziHandle, hon, baziExecTool, hb,
            mapGet_mapSet_self]
        · simp [baziUpdateStatus]
      · refine ⟨{ s0.status with responseTime := some (t1 - t0) }, ?_, ?_⟩
        · simp [executeTool, hres, baziHandle, hon, baziExecTool, hb,
            getServerStatus, mapGet_mapSet_self]
        · simp [loadActiveRequests, hsync]
    | error msg =>
      constructor
      · refine ⟨baziUpdateStatus now
          { s0 with activeRequests := s0.activeRequests + 1 - 1,
                    totalRequests := s0.totalRequests + 1 }, ?_, ?_⟩
        · simp [executeTool, hres, baziHandle, hon, baziExecTool, hb,
            mapGet_mapSet_self]
        · simp [baziUpdateStatus]
      · refine ⟨{ (baziUpdateStatus now
            { s0 with activeRequests := s0.activeRequests + 1 - 1,
                      totalRequests := s0.totalRequests + 1 }).status with
            online := false, error := some msg }, ?_, ?_⟩
        · simp [executeTool, hres, baziHandle, hon, baziExecTool, hb,
            getServerStatus, mapGet_mapSet_self]
        · simp [baziUpdateStatus, loadActiveRequests]

/-- A concrete `BaziState`: three requests served so far, none active. -/
def baziIdle : BaziState :=
  { status := { online := true, lastUpdate := 0, responseTime := none,
                error := none,
                load := some { activeRequests := 0, totalRequests := 3 } },
    totalRequests := 3,
    activeRequests := 0 }

/-- A registry holding the concrete `BaziServer` state under `bazi`. -/
def regBazi : RegistryState BaziState :=
  { servers := [("bazi", baziIdle)],
    serverStatuses := [("bazi", baziIdle.status)] }

/-- C4 witness: a concrete failing call on the `bazi` service leaves the
counter at its pre-call value 0. -/
theorem c4_witness :
    (∃ s1, mapGet (executeTool
          (baziHandle (fun (_ : String) (_ : Unit) => (Except.error "invalid params" : Except String Unit)) 9 true)
          regBazi "bazi" "getBaziDetail" () 0 5).1.servers "bazi" = some s1
       ∧ s1.activeRequests = baziIdle.activeRequests)
    ∧ (∃ cs, getServerStatus (executeTool
          (baziHandle (fun (_ : String) (_ : Unit) => (Except.error "invalid params" : Except String Unit)) 9 true)
          regBazi "bazi" "getBaziDetail" () 0 5).1 "bazi" = some cs
       ∧ loadActiveRequests cs = baziIdle.activeRequests) :=
  c4_counters_never_leak (fun (_ : String) (_ : Unit) => (Except.error "invalid params" : Except String Unit)) 9 true
    regBazi "bazi" "getBaziDetail" () 0 5 baziIdle rfl rfl

/-! ## Least-connections helpers -/

theorem foldl_least_mem {S : Type} (f : S → Nat) (acc : S) (xs : List S) :
    xs.foldl (fun least current => if f current < f least then current else least) acc
      ∈ acc :: xs := by
  induction xs generalizing acc with
  | nil => simp
  | cons c rest ih =>
    rw [List.foldl_cons]
    rcases List.mem_cons.mp (ih (if f c < f acc then c else acc)) with hh | hh
    · rw [hh]
      by_cases hc : f c < f acc
      · simp [hc]
      · simp [hc]
    · exact List.mem_cons_of_mem _ (List.mem_cons_of_mem _ hh)

theorem foldl_least_spec {S : Type} (f : S → Nat) (acc : S) (xs : List S) :
    (xs.foldl (fun least current => if f current < f least then current else least) acc
        = acc
      ∧ ∀ y ∈ xs, f acc ≤ f y)
    ∨ (∃ l1 l2,
        xs = l1
          ++ xs.foldl (fun least current => if f current < f least then current else least) acc
          :: l2
        ∧ f (xs.foldl (fun least current => if f current < f least then current else least) acc)
            < f acc
        ∧ (∀ y ∈ l1,
            f (xs.foldl (fun least current => if f current < f least then current else least) acc)
              < f y)
        ∧ (∀ y ∈ l2,
            f (xs.foldl (fun least current => if f current < f least then current else least) acc)
              ≤ f y)) := by
  induction xs generalizing acc with
  | nil => left; exact ⟨rfl, by simp⟩
  | cons c rest ih =>
    rw [List.foldl_cons]
    by_cases hc : f c < f acc
    · rw [if_pos hc]
      rcases ih c with ⟨heq, hball⟩ | ⟨l1, l2, hsplit, hlt, hl1, hl2⟩
      · right
        refine ⟨[], rest, ?_, ?_, ?_, ?_⟩
        · simp [heq]
        · rw [heq]; exact hc
        · intro y hy; cases hy
        · intro y hy; rw [heq]; exact hball y hy
      · right
        refine ⟨c :: l1, l2, ?_, ?_, ?_, ?_⟩
        · rw [List.cons_append]
          exact congrArg (c :: ·) hsplit
        · exact lt_trans hlt hc
        · intro y hy
          rcases List.mem_cons.mp hy with hy | hy
          · rw [hy]; exact hlt
          · exact hl1 y hy
        · exact hl2
    · rw [if_neg hc]
      have hac : f acc ≤ f c := Nat.le_of_not_lt hc
      rcases ih acc with ⟨heq, hball⟩ | ⟨l1, l2, hsplit, hlt, hl1, hl2⟩
      · left
        refine ⟨heq, ?_⟩
        intro y hy
        rcases List.mem_cons.mp hy with hy | hy
        · rw [hy]; exact hac
        · exact hball y hy
      · right
        refine ⟨c :: l1, l2, congrArg (c :: ·) hsplit, hlt, ?_, hl2⟩
        intro y hy
        rcases List.mem_cons.mp hy with hy | hy
        · rw [hy]; exact lt_of_lt_of_le hlt hac
        · exact hl1 y hy

/-! ## `selectServer` reduction lemmas -/

theorem selectServer_no_online {S : Type} (getStatus : S → ServerStatus)
    (lb : LoadBalancer) (servers : List S) (r : Nat) (hsne : servers ≠ [])
    (hall : servers.filter (fun s => (getStatus s).online) = []) :
    selectServer getStatus lb servers r = Except.error noOnlineInstanceMsg := by
  have h0 : ¬ (servers.length = 0) := by
    simpa [List.length_eq_zero] using hsne
  simp [selectServer, h0, hall]

theorem selectServer_eq_branch {S : Type} (getStatus : S → ServerStatus)
    (lb : LoadBalancer) (servers : List S) (r : Nat)
    (hne : servers.filter (fun s => (getStatus s).online) ≠ []) :
    selectServer getStatus lb servers r =
      match lb.strategy with
      | LoadBalancingStrategy.round_robin =>
        selectRoundRobin lb (servers.filter (fun s => (getStatus s).online))
      | LoadBalancingStrategy.random =>
        match selectRandom (servers.filter (fun s => (getStatus s).online)) r with
        | Except.ok s => Except.ok (s, lb)
        | Except.error e => Except.error e
      | LoadBalancingStrategy.least_connections =>
        match selectLeastConnections getStatus
            (servers.filter (fun s => (getStatus s).online)) with
        | Except.ok s => Except.ok (s, lb)
        | Except.error e => Except.error e := by
  have hsne : servers ≠ [] := by
    intro h
    rw [h] at hne
    simp at hne
  have h0 : ¬ (servers.length = 0) := by
    simpa [List.length_eq_zero] using hsne
  have h1 : ¬ ((servers.filter (fun s => (getStatus s).online)).length = 0) := by
    simpa [List.length_eq_zero] using hne
  simp only [selectServer, h0, if_false, h1]

/-- C6: under least-connections, `selectServer` returns a member of the
filtered online list attaining the minimum `activeRequests` (with missing
load data counting as 0, as in the source), and every candidate placed
before it in iteration order has strictly more — i.e. the first
minimum-attaining candidate wins ties; the balancer state is returned
unchanged. -/
theorem c6_least_connections_first_min {S : Type} (getStatus : S → ServerStatus)
    (lb : LoadBalancer) (servers : List S) (r : Nat)
    (hstrat : lb.strategy = LoadBalancingStrategy.least_connections)
    (hne : servers.filter (fun s => (getStatus s).online) ≠ []) :
    ∃ s, selectServer getStatus lb servers r = Except.ok (s, lb)
      ∧ (∀ y ∈ servers.filter (fun s2 => (getStatus s2).online),
           loadActiveRequests (getStatus s) ≤ loadActiveRequests (getStatus y))
      ∧ ∃ l1 l2, servers.filter (fun s2 => (getStatus s2).online) = l1 ++ s :: l2
          ∧ ∀ y ∈ l1, loadActiveRequests (getStatus s) < loadActiveRequests (getStatus y) := by
  rw [selectServer_eq_branch getStatus lb servers r hne, hstrat]
  cases havail : servers.filter (fun s => (getStatus s).online) with
  | nil => exact absurd havail hne
  | cons first rest =>
    rw [selectLeastConnections]
    refine ⟨rest.foldl
      (fun least current =>
        if loadActiveRequests (getStatus current) <
            loadActiveRequests (getStatus least) then current else least) first,
      rfl, ?_, ?_⟩
    · intro y hy
      rcases foldl_least_spec (fun s2 => loadActiveRequests (getStatus s2))
          first rest with ⟨heq, hball⟩ | ⟨l1, l2, hsplit, hlt, hl1, hl2⟩
      · rw [heq]
        rcases List.mem_cons.mp hy with hy | hy
        · rw [hy]
        · exact hball y hy
      · rcases List.mem_cons.mp hy with hy | hy
        · rw [hy]; exact Nat.le_of_lt hlt
        · rw [hsplit] at hy
          rcases List.mem_append.mp hy with hy | hy
          · exact Nat.le_of_lt (hl1 y hy)
          · rcases List.mem_cons.mp hy with hy | hy
            · rw [hy]
            · exact hl2 y hy
    · rcases foldl_least_spec (fun s2 => loadActiveRequests (getStatus s2))
          first rest with ⟨heq, hball⟩ | ⟨l1, l2, hsplit, hlt, hl1, hl2⟩
      · refine ⟨[], rest, ?_, ?_⟩
        · rw [heq]
          rfl
        · intro y hy; cases hy
      · refine ⟨first :: l1, l2, ?_, ?_⟩
        · conv_lhs => rw [hsplit]
          rfl
        · intro y hy
          rcases List.mem_cons.mp hy with hy | hy
          · rw [hy]; exact hlt
          · exact hl1 y hy

/-- Two online statuses with 3 and 1 active requests. -/
def busyStatus3 : ServerStatus :=
  { online := true, lastUpdate := 0, responseTime := none, error := none,
    load := some { activeRequests := 3, totalRequests := 10 } }

/-- An online status with 1 active request. -/
def busyStatus1 : ServerStatus :=
  { online := true, lastUpdate := 0, responseTime := none, error := none,
    load := some { activeRequests := 1, totalRequests := 4 } }

/-- C6 witness: with candidates at 3 and 1 active requests, the element
with 1 is selected (the spec scenario `h1,h2 → h2`). -/
theorem c6_witness :
    ∃ s, selectServer (fun st2 => st2)
        { strategy := LoadBalancingStrategy.least_connections, roundRobinIndex := 0 }
        [busyStatus3, busyStatus1] 0 = Except.ok (s,
          { strategy := LoadBalancingStrategy.least_connections, roundRobinIndex := 0 })
      ∧ (∀ y ∈ [busyStatus3, busyStatus1].filter (fun s2 => s2.online),
           loadActiveRequests s ≤ loadActiveRequests y)
      ∧ ∃ l1 l2, [busyStatus3, busyStatus1].filter (fun s2 => s2.online) = l1 ++ s :: l2
          ∧ ∀ y ∈ l1, loadActiveRequests s < loadActiveRequests y :=
  c6_least_connections_first_min (fun st2 => st2)
    { strategy := LoadBalancingStrategy.least_connections, roundRobinIndex := 0 }
    [busyStatus3, busyStatus1] 0 rfl (by decide)

/-! ## C7 helpers -/

theorem serviceNotFoundMsg_ne_noOnline (name : String) (ns : List String) :
    noOnlineInstanceMsg ≠ serviceNotFoundMsg name ns := by
  intro h
  have h2 := congrArg String.length h
  rw [serviceNotFoundMsg, String.length_append, String.length_append,
    String.length_append] at h2
  have e1 : ("MCP服务 \x27" : String).length = 7 := by decide
  have e2 : ("\x27 未找到。可用服务: " : String).length = 12 := by decide
  have e3 : noOnlineInstanceMsg.length = 9 := by decide
  rw [e1, e2, e3] at h2
  omega

theorem selectServer_ok_online {S : Type} (getStatus : S → ServerStatus)
    (lb : LoadBalancer) (servers : List S) (r : Nat) (s : S)
    (lb2 : LoadBalancer)
    (hok : selectServer getStatus lb servers r = Except.ok (s, lb2)) :
    (getStatus s).online = true := by
  have hmem : s ∈ servers.filter (fun s2 => (getStatus s2).online) := by
    by_cases hne : servers.filter (fun s2 => (getStatus s2).online) = []
    · by_cases hsne : servers = []
      · rw [hsne] at hok
        simp [selectServer] at hok
      · rw [selectServer_no_online getStatus lb servers r hsne hne] at hok
        cases hok
    · rw [selectServer_eq_branch getStatus lb servers r hne] at hok
      have h1 : ¬ ((servers.filter (fun s2 => (getStatus s2).online)).length = 0) := by
        simpa [List.length_eq_zero] using hne
      cases hstr : lb.strategy with
      | round_robin =>
        rw [hstr] at hok
        rw [selectRoundRobin, dif_neg h1] at hok
        simp only [Except.ok.injEq, Prod.mk.injEq] at hok
        rw [← hok.1]
        exact List.get_mem _ _ _
      | random =>
        rw [hstr] at hok
        rw [selectRandom, dif_neg h1] at hok
        simp only [Except.ok.injEq, Prod.mk.injEq] at hok
        rw [← hok.1]
        exact List.get_mem _ _ _
      | least_connections =>
        rw [hstr] at hok
        cases havail : servers.filter (fun s2 => (getStatus s2).online) with
        | nil => exact absurd havail hne
        | cons first rest =>
          rw [havail, selectLeastConnections] at hok
          simp only [Except.ok.injEq, Prod.mk.injEq] at hok
          rw [← hok.1]
          exact foldl_least_mem (fun s2 => loadActiveRequests (getStatus s2)) first rest
  exact (List.mem_filter.mp hmem).2

/-- C7: a non-empty candidate list with no online member fails with the
`NoAvailableInstance` message, which differs from every `ServiceNotFound`
message the registry can produce; and any server returned by
`selectServer`, under any policy, reported online at filtering time. -/
theorem c7_no_available_instance {S : Type} (getStatus : S → ServerStatus)
    (lb : LoadBalancer) (servers : List S) (r : Nat) :
    (servers ≠ [] → (∀ s ∈ servers, (getStatus s).online = false) →
       selectServer getStatus lb servers r = Except.error noOnlineInstanceMsg
       ∧ ∀ (name : String) (ns : List String),
           noOnlineInstanceMsg ≠ serviceNotFoundMsg name ns)
    ∧ (∀ (s : S) (lb2 : LoadBalancer),
         selectServer getStatus lb servers r = Except.ok (s, lb2) →
         (getStatus s).online = true) := by
  constructor
  · intro hsne hall
    refine ⟨?_, serviceNotFoundMsg_ne_noOnline⟩
    refine selectServer_no_online getStatus lb servers r hsne ?_
    rw [List.filter_eq_nil_iff]
    intro a ha
    simp [hall a ha]
  · intro s lb2 hok
    exact selectServer_ok_online getStatus lb servers r s lb2 hok

/-- An offline status. -/
def offlineStatus0 : ServerStatus :=
  { online := false, lastUpdate := 0, responseTime := none,
    error := some "down", load := none }

/-- C7 witness: a concrete all-offline candidate list fails with
`NoAvailableInstance`, and a concrete mixed list returns an online
member. -/
theorem c7_witness :
    selectServer (fun st2 => st2)
        { strategy := LoadBalancingStrategy.round_robin, roundRobinIndex := 0 }
        [offlineStatus0, offlineStatus0] 0 = Except.error noOnlineInstanceMsg
    ∧ noOnlineInstanceMsg ≠ serviceNotFoundMsg "svc" ["svc"]
    ∧ busyStatus1.online = true :=
  ⟨((c7_no_available_instance (fun st2 => st2)
      { strategy := LoadBalancingStrategy.round_robin, roundRobinIndex := 0 }
      [offlineStatus0, offlineStatus0] 0).1 (by decide) (by decide)).1,
   ((c7_no_available_instance (fun st2 => st2)
      { strategy := LoadBalancingStrategy.round_robin, roundRobinIndex := 0 }
      [offlineStatus0, offlineStatus0] 0).1 (by decide) (by decide)).2 "svc" ["svc"],
   (c7_no_available_instance (fun st2 => st2)
      { strategy := LoadBalancingStrategy.round_robin, roundRobinIndex := 0 }
      [busyStatus1] 0).2 busyStatus1
      { strategy := LoadBalancingStrategy.round_robin, roundRobinIndex := 1 } rfl⟩

/-! ## Round-robin helpers -/

/-- The element the round-robin cursor picks from a non-empty list. -/
def rrPick {S : Type} (l : List S) (i : Nat) (h : l ≠ []) : S :=
  l.get ⟨i % l.length, Nat.mod_lt _ (List.length_pos.mpr h)⟩

theorem rrPick_zero {S : Type} (l : List S) (h : l ≠ []) :
    rrPick l 0 h = l.head h := by
  cases l with
  | nil => exact absurd rfl h
  | cons a t => simp [rrPick]

theorem selectServer_rr {S : Type} (getStatus : S → ServerStatus)
    (lb : LoadBalancer) (servers : List S) (r : Nat)
    (hstrat : lb.strategy = LoadBalancingStrategy.round_robin)
    (hne : servers.filter (fun s => (getStatus s).online) ≠ []) :
    selectServer getStatus lb servers r
      = Except.ok
          (rrPick (servers.filter (fun s => (getStatus s).online))
            lb.roundRobinIndex hne,
           { lb with roundRobinIndex := lb.roundRobinIndex + 1 }) := by
  have h1 : ¬ ((servers.filter (fun s => (getStatus s).online)).length = 0) := by
    simpa [List.length_eq_zero] using hne
  rw [selectServer_eq_branch getStatus lb servers r hne, hstrat]
  rw [selectRoundRobin, dif_neg h1]
  simp only [hstrat]
  rfl

theorem selectRuns_rr {S : Type} (getStatus : S → ServerStatus)
    (servers : List S) (r : Nat)
    (hne : servers.filter (fun s => (getStatus s).online) ≠ []) :
    ∀ (k : Nat) (lb : LoadBalancer),
      lb.strategy = LoadBalancingStrategy.round_robin →
      (selectRuns getStatus lb servers r k).1
        = (List.range k).map
            (fun j => rrPick (servers.filter (fun s => (getStatus s).online))
              (lb.roundRobinIndex + j) hne) := by
  intro k
  induction k with
  | zero => intro lb hstrat; rfl
  | succ k ih =>
    intro lb hstrat
    rw [selectRuns, selectServer_rr getStatus lb servers r hstrat hne]
    have hlb2 : ({ lb with roundRobinIndex := lb.roundRobinIndex + 1 }
        : LoadBalancer).strategy = LoadBalancingStrategy.round_robin := hstrat
    rw [List.range_succ_eq_map, List.map_cons, List.map_map]
    show rrPick _ lb.roundRobinIndex hne
        :: (selectRuns getStatus { lb with roundRobinIndex := lb.roundRobinIndex + 1 }
              servers r k).1 = _
    rw [ih { lb with roundRobinIndex := lb.roundRobinIndex + 1 } hlb2]
    congr 1
    apply List.map_congr_left
    intro j hj
    show rrPick _ (lb.roundRobinIndex + 1 + j) hne
      = rrPick _ (lb.roundRobinIndex + Nat.succ j) hne
    exact congrArg (fun i => rrPick _ i hne) (by omega)

theorem range_map_rrPick_perm {S : Type} (l : List S) (i : Nat) (h : l ≠ []) :
    ((List.range l.length).map (fun j => rrPick l (i + j) h)).Perm l := by
  have heq : (List.range l.length).map (fun j => rrPick l (i + j) h)
      = l.rotate i := by
    apply List.ext_get
    · simp
    · intro n h1 h2
      rw [List.get_map, List.get_rotate]
      show l.get ⟨(i + (List.range l.length).get ⟨n, _⟩) % l.length, _⟩ = _
      congr 1
      rw [List.get_range]
      exact Nat.add_comm i n ▸ rfl
  rw [heq]
  exact List.rotate_perm l i

/-- C5: with the round-robin policy and an unchanged candidate list,
`N` consecutive `selectServer` calls (where `N` is the size of the
filtered online list) return a permutation of the filtered online list —
each member exactly once. -/
theorem c5_round_robin_cycle {S : Type} (getStatus : S → ServerStatus)
    (lb : LoadBalancer) (servers : List S) (r : Nat)
    (hstrat : lb.strategy = LoadBalancingStrategy.round_robin)
    (hne : servers.filter (fun s => (getStatus s).online) ≠ []) :
    ((selectRuns getStatus lb servers r
        ((servers.filter (fun s => (getStatus s).online)).length)).1).Perm
      (servers.filter (fun s => (getStatus s).online)) := by
  rw [selectRuns_rr getStatus servers r hne _ lb hstrat]
  exact range_map_rrPick_perm _ lb.roundRobinIndex hne

/-- C5 witness: two online candidates, two consecutive calls starting from
cursor 5 — the selections are a permutation of the filtered list. -/
theorem c5_witness :
    ((selectRuns (fun st2 => st2)
        { strategy := LoadBalancingStrategy.round_robin, roundRobinIndex := 5 }
        [busyStatus3, offlineStatus0, busyStatus1] 0 2).1).Perm
      ([busyStatus3, offlineStatus0, busyStatus1].filter (fun s2 => s2.online)) := by
  have := c5_round_robin_cycle (fun st2 => st2)
    { strategy := LoadBalancingStrategy.round_robin, roundRobinIndex := 5 }
    [busyStatus3, offlineStatus0, busyStatus1] 0 rfl (by decide)
  simpa using this

/-- C8: `setStrategy` installs the policy and resets the cursor to 0 (the
balancer has no other state), so the first subsequent round-robin
selection returns the head of the then-current filtered online list; and
the selection made under the random or least-connections policies does not
depend on the cursor at all. -/
theorem c8_setStrategy_resets {S : Type} (getStatus : S → ServerStatus) :
    (∀ (lb : LoadBalancer) (strat : LoadBalancingStrategy),
       setStrategy lb strat = { strategy := strat, roundRobinIndex := 0 })
    ∧ (∀ (lb : LoadBalancer) (servers : List S) (r : Nat)
         (hne2 : servers.filter (fun s => (getStatus s).online) ≠ []),
         selectServer getStatus (setStrategy lb LoadBalancingStrategy.round_robin)
             servers r
           = Except.ok
               ((servers.filter (fun s => (getStatus s).online)).head hne2,
                { strategy := LoadBalancingStrategy.round_robin,
                  roundRobinIndex := 1 }))
    ∧ (∀ (lb1 lb2 : LoadBalancer) (servers : List S) (r : Nat),
         lb1.strategy = lb2.strategy →
         (lb1.strategy = LoadBalancingStrategy.random
           ∨ lb1.strategy = LoadBalancingStrategy.least_connections) →
         (selectServer getStatus lb1 servers r).map Prod.fst
           = (selectServer getStatus lb2 servers r).map Prod.fst) := by
  refine ⟨fun lb strat => rfl, ?_, ?_⟩
  · intro lb servers r hne2
    rw [selectServer_rr getStatus (setStrategy lb LoadBalancingStrategy.round_robin)
      servers r rfl hne2]
    simp only [setStrategy]
    rw [rrPick_zero]
  · intro lb1 lb2 servers r hsame hpol
    by_cases hne : servers.filter (fun s => (getStatus s).online) = []
    · by_cases hsne : servers = []
      · subst hsne
        rfl
      · rw [selectServer_no_online getStatus lb1 servers r hsne hne,
          selectServer_no_online getStatus lb2 servers r hsne hne]
    · rw [selectServer_eq_branch getStatus lb1 servers r hne,
        selectServer_eq_branch getStatus lb2 servers r hne, ← hsame]
      rcases hpol with hp | hp
      · rw [hp]
        cases selectRandom (servers.filter (fun s => (getStatus s).online)) r with
        | ok s => rfl
        | error e => rfl
      · rw [hp]
        cases selectLeastConnections getStatus
            (servers.filter (fun s => (getStatus s).online)) with
        | ok s => rfl
        | error e => rfl

/-- C8 witness: concrete reset, first-selection, and cursor-independence
instances. -/
theorem c8_witness :
    setStrategy { strategy := LoadBalancingStrategy.random, roundRobinIndex := 9 }
        LoadBalancingStrategy.round_robin
      = { strategy := LoadBalancingStrategy.round_robin, roundRobinIndex := 0 }
    ∧ selectServer (fun st2 => st2)
        (setStrategy { strategy := LoadBalancingStrategy.random, roundRobinIndex := 9 }
          LoadBalancingStrategy.round_robin)
        [offlineStatus0, busyStatus3, busyStatus1] 0
      = Except.ok (busyStatus3,
          { strategy := LoadBalancingStrategy.round_robin, roundRobinIndex := 1 })
    ∧ (selectServer (fun st2 => st2)
          { strategy := LoadBalancingStrategy.least_connections, roundRobinIndex := 2 }
          [busyStatus3, busyStatus1] 0).map Prod.fst
      = (selectServer (fun st2 => st2)
          { strategy := LoadBalancingStrategy.least_connections, roundRobinIndex := 8 }
          [busyStatus3, busyStatus1] 0).map Prod.fst := by
  refine ⟨(c8_setStrategy_resets (fun st2 => st2)).1
      { strategy := LoadBalancingStrategy.random, roundRobinIndex := 9 }
      LoadBalancingStrategy.round_robin, ?_, ?_⟩
  · have := (c8_setStrategy_resets (fun st2 => st2)).2.1
      { strategy := LoadBalancingStrategy.random, roundRobinIndex := 9 }
      [offlineStatus0, busyStatus3, busyStatus1] 0 (by decide)
    simpa using this
  · exact (c8_setStrategy_resets (fun st2 => st2)).2.2
      { strategy := LoadBalancingStrategy.least_connections, roundRobinIndex := 2 }
      { strategy := LoadBalancingStrategy.least_connections, roundRobinIndex := 8 }
      [busyStatus3, busyStatus1] 0 rfl (Or.inr rfl)
